import Mathlib

/-!
  Verification of the Audio-Drama-Studio core against its specification.

  We shallowly embed the two subsystems the spec covers — the heuristic
  script parser (`src/utils/scriptParsing.ts`) with its segment grouper and
  casting check (`src/services/geminiService.ts`), and the audio pipeline
  (resampler, concatenator, WAV encoder of `src/unnamed/part_000`) — as
  executable Lean definitions, and prove or refute the spec's claims.

  Modelling conventions:
  * A JavaScript string is a `List Char` (`Str`).  JS string methods
    (`trim`, `toLowerCase`, `split`, `match`, `replace`, `includes`,
    `startsWith`) are embedded with JS semantics restricted to the
    character set the program manipulates: the whitespace class is the
    ASCII one, case mapping is ASCII A–Z/a–z (identity elsewhere), and
    the Unicode classes `\p{L}`/`\p{N}`/`\p{P}` are their ASCII parts.
  * The source file is double-mojibake-encoded: its regex character
    classes literally contain the characters 'â' (U+00E2), '€' (U+20AC),
    '”' (U+201D), '“' (U+201C) where em/en dashes were intended, and the
    emoji-skip prefixes are the corresponding mojibake character runs.
    The embedding reproduces those exact characters.
  * JS numbers are embedded as `ℚ` (exact rational arithmetic); `x | 0`
    is `toInt32`, `Math.round` is Mathlib's `round` (both round half up).
  * The network-facing synthesis call of `generateDramaAudio` is
    abstracted as a total oracle `synth`; the deterministic control flow
    around it (grouping, casting lookup, empty-text skip, error throw,
    request issuing) is embedded faithfully, with the issued requests
    recorded as a trace and a thrown error as `Except.error`.
-/

namespace AudioDrama

/-- JS strings, embedded as lists of characters. -/
abbrev Str := List Char

/-- Character list of a Lean string literal (input notation only). -/
def str (s : String) : Str := s.data

/-- JS `\s` (ASCII part): space, tab, newline, carriage return, vertical
tab, form feed. -/
def isWsChar (c : Char) : Bool :=
  c = ' ' || c = '\t' || c = '\n' || c = '\r' || c = '\x0b' || c = '\x0c'

/-- ASCII lowercase letter a–z. -/
def isLowerAlpha (c : Char) : Bool := 97 ≤ c.toNat && c.toNat ≤ 122

/-- ASCII uppercase letter A–Z. -/
def isUpperAlpha (c : Char) : Bool := 65 ≤ c.toNat && c.toNat ≤ 90

/-- ASCII digit 0–9. -/
def isAsciiDigit (c : Char) : Bool := 48 ≤ c.toNat && c.toNat ≤ 57

/-- JS `toLowerCase`, ASCII fragment. -/
def toLowerChar (c : Char) : Char :=
  if isUpperAlpha c then Char.ofNat (c.toNat + 32) else c

/-- JS `toUpperCase`, ASCII fragment. -/
def toUpperChar (c : Char) : Char :=
  if isLowerAlpha c then Char.ofNat (c.toNat - 32) else c

/-- JS `s.toLowerCase()`. -/
def toLowerStr (l : Str) : Str := l.map toLowerChar

/-- JS `s.toUpperCase()`. -/
def toUpperStr (l : Str) : Str := l.map toUpperChar

/-- JS `s.trim()`. -/
def jsTrim (l : Str) : Str :=
  ((l.dropWhile isWsChar).reverse.dropWhile isWsChar).reverse

/-- JS `hay.includes(needle)`. -/
def containsSub (hay needle : Str) : Bool :=
  match hay with
  | [] => needle.isEmpty
  | _ :: t => needle.isPrefixOf hay || containsSub t needle

/-- ASCII `\p{P}` (Unicode punctuation, ASCII part): the characters
`! " # % & ' ( ) * , - . / : ; ? @ [ \ ] _ { }`. -/
def isPunctChar (c : Char) : Bool :=
  c = '!' || c = '"' || c = '#' || c = '%' || c = '&' || c = '\'' ||
  c = '(' || c = ')' || c = '*' || c = ',' || c = '-' || c = '.' ||
  c = '/' || c = ':' || c = ';' || c = '?' || c = '@' || c = '[' ||
  c = '\\' || c = ']' || c = '_' || c = '\x7b' || c = '\x7d'

/-- Maximal runs of characters not satisfying `p`, in order (the nonempty
pieces of a JS `split` on `p`-runs). -/
def runGroups (p : Char → Bool) (l : Str) : List Str :=
  (l.foldr
    (fun c acc =>
      if p c then [] :: acc
      else
        match acc with
        | [] => [[c]]
        | g :: gs => (c :: g) :: gs)
    []).filter (fun g => !g.isEmpty)

/-- JS `s.split(re)` where `re` is a character class with `+` (e.g.
`/\s+/`, `/[\s-]+/`): splits on maximal runs of `p`-characters, keeping a
leading/trailing empty piece when the string starts/ends with a separator;
the empty string yields `[""]`. -/
def jsSplitRuns (p : Char → Bool) : Str → List Str
  | [] => [[]]
  | c :: cs =>
    (if p c then [[]] else []) ++ runGroups p (c :: cs) ++
      (if p ((c :: cs).getLast (List.cons_ne_nil c cs)) then [[]] else [])

/-- Scan for the closing parenthesis of a `\(.*?\)` match: `.` does not
match a line terminator, so the scan fails at `\n`/`\r` or end of input.
On success returns (content before the `)`, remainder after it). -/
def findClose : Str → Option (Str × Str)
  | [] => none
  | c :: rest =>
    if c = ')' then some ([], rest)
    else if c = '\n' ∨ c = '\r' then none
    else
      match findClose rest with
      | some (inside, rem) => some (c :: inside, rem)
      | none => none

/-- Worker for `removeParens`, structurally recursive on a fuel argument
so that it reduces in the kernel; every call consumes at least one input
character per unit of fuel (`findClose` only shortens the input, by
`findClose_length`), so fuel `l.length` never runs out. -/
def removeParensAux : Nat → Str → Str
  | 0, _ => []
  | _, [] => []
  | fuel + 1, c :: rest =>
    if c = '(' then
      match findClose rest with
      | some (_, rem) => removeParensAux fuel rem
      | none => c :: removeParensAux fuel rest
    else c :: removeParensAux fuel rest

/-- JS `s.replace(/\(.*?\)/g, '')`: remove every non-greedy parenthesized
substring (never spanning a line terminator). -/
def removeParens (l : Str) : Str := removeParensAux l.length l

/-- Worker for `parenChunks`, fueled like `removeParensAux`. -/
def parenChunksAux : Nat → Str → List Str
  | 0, _ => []
  | _, [] => []
  | fuel + 1, c :: rest =>
    if c = '(' then
      match findClose rest with
      | some (inside, rem) => ('(' :: inside ++ [')']) :: parenChunksAux fuel rem
      | none => parenChunksAux fuel rest
    else parenChunksAux fuel rest

/-- JS `s.match(/\((.*?)\)/g)`: the full `(...)` matches, in order. -/
def parenChunks (l : Str) : List Str := parenChunksAux l.length l

/-! ## Name Sanitizer (`cleanSpeakerName`, `src/utils/scriptParsing.ts:10-25`) -/

/-- The character class `[-â€”â€“]` of the separator regex, and `[â€”â€“-]`
of the dash-split regex, exactly as the (mojibake-encoded) source has them:
`'-'`, `'â'`, `'€'`, `'”'`, `'“'`. -/
def mojibakeDash (c : Char) : Bool :=
  c = '-' || c = 'â' || c = '€' || c = '”' || c = '“'

/-- Whether the separator regex `/\s+[-â€”â€“]\s+/` matches starting at the
head of `l`: one or more whitespace characters, a separator-class
character, then at least one more whitespace character. -/
def sepMatchAt (l : Str) : Bool :=
  match l with
  | [] => false
  | c :: rest =>
    isWsChar c &&
      (match rest.dropWhile isWsChar with
       | d :: w :: _ => mojibakeDash d && isWsChar w
       | _ => false)

/-- Index of the first match of `/\s+[-â€”â€“]\s+/` in `l` (JS
`name.match(...).index`). -/
def sepIndexAux : Str → Nat → Option Nat
  | [], _ => none
  | c :: rest, i =>
    if sepMatchAt (c :: rest) then some i else sepIndexAux rest (i + 1)

/-- First-match index of the separator regex. -/
def sepIndex (l : Str) : Option Nat := sepIndexAux l 0

/-- Characters kept by `name.replace(/[^\p{L}\p{N}\s'-]/gu, '')` (ASCII
letter/digit fragment of `\p{L}`/`\p{N}`). -/
def keepNameChar (c : Char) : Bool :=
  isLowerAlpha c || isUpperAlpha c || isAsciiDigit c || isWsChar c ||
    c = '\'' || c = '-'

/-- The name sanitizer `cleanSpeakerName`: remove parenthesized
substrings; truncate at the first whitespace-surrounded separator — but,
as in the source's `if (separatorMatch && separatorMatch.index)`, only
when that first match is at a nonzero index; strip characters outside the
letter/digit/space/hyphen/apostrophe set; trim. -/
def cleanSpeakerName (raw : Str) : Str :=
  let name := removeParens raw
  let name :=
    match sepIndex name with
    | some i => if i = 0 then name else name.take i
    | none => name
  jsTrim (name.filter keepNameChar)

/-! ## Metadata/Noise Classifier (`isMetadataLine`, `src/utils/scriptParsing.ts:27-75`) -/

/-- The `startsWithBanned` prefix table, in source order. -/
def startsWithBanned : List Str :=
  [str "scene", str "act", str "act:",
   str "cue", str "sound", str "fx", str "lighting",
   str "camera", str "cut to", str "fade",
   str "narrator opening", str "closing", str "entry", str "exit",
   str "int.", str "ext.", str "est.",
   str "total",
   str "time", str "date", str "setting", str "location", str "place",
   str "drama", str "dance", str "duration",
   str "order", str "gen", str "gen-z",
   str "here's", str "here is", str "sure", str "okay", str "certainly",
   str "revised", str "humanized", str "generated", str "script",
   str "title", str "synopsis", str "summary", str "cast", str "characters",
   str "note", str "disclaimer"]

/-- The `containsBanned` substring table, in source order. -/
def containsBanned : List Str :=
  [str "transition", str "background", str "theme", str "fade out", str "fade in",
   str "music", str "song", str "beat", str "flute", str "track",
   str "entry", str "enters", str "descends", str "appear",
   str "bow", str "applause", str "laugh", str "cheer", str "crowd",
   str "end", str "begin", str "start", str "finish"]

/-- Rule 1 of the classifier: the lower-cased name equals a banned prefix
or starts with one followed by a space. -/
def prefixRuleHit (lower : Str) : Bool :=
  startsWithBanned.any fun p => lower = p || (p ++ [' ']).isPrefixOf lower

/-- Rule 2: the lower-cased name contains a banned substring. -/
def containsRuleHit (lower : Str) : Bool :=
  containsBanned.any fun w => containsSub lower w

/-- Whether `l` starts with an ASCII digit (the `\d+` tail of the
structural regexes). -/
def digitStart (l : Str) : Bool :=
  match l with
  | c :: _ => isAsciiDigit c
  | [] => false

/-- Test of `/^act\s*\d+/i` on an (already lower-cased) string. -/
def actNumAt (lower : Str) : Bool :=
  (str "act").isPrefixOf lower && digitStart ((lower.drop 3).dropWhile isWsChar)

/-- Test of `/^scene\s*\d+/i` on an (already lower-cased) string. -/
def sceneNumAt (lower : Str) : Bool :=
  (str "scene").isPrefixOf lower && digitStart ((lower.drop 5).dropWhile isWsChar)

/-- Test of `/^order\s*#?\d+/i` on an (already lower-cased) string. -/
def orderNumAt (lower : Str) : Bool :=
  (str "order").isPrefixOf lower &&
    (let rest := (lower.drop 5).dropWhile isWsChar
     let rest := if rest.headD ' ' = '#' then rest.drop 1 else rest
     digitStart rest)

/-- Rule 4's word list: `lower.split(/[\s-]+/)`. -/
def metaWords (lower : Str) : List Str :=
  jsSplitRuns (fun c => isWsChar c || c = '-') lower

/-- Rule 4: some `[\s-]+`-separated token equals `"cue"`. -/
def cueRuleHit (lower : Str) : Bool :=
  (metaWords lower).contains (str "cue")

/-- Rule 5, the length heuristic as implemented: more than 4 tokens of the
same `[\s-]+` split. -/
def lengthRuleHit (lower : Str) : Bool :=
  (metaWords lower).length > 4

/-- Rule 6: `lower.replace(/[^a-z]/g, '')` is empty. -/
def alphaRuleHit (lower : Str) : Bool :=
  (lower.filter isLowerAlpha).isEmpty

/-- The metadata/noise classifier `isMetadataLine`, rules in source
order (short-circuit disjunction). -/
def isMetadataLine (speakerClean : Str) : Bool :=
  let lower := jsTrim (toLowerStr speakerClean)
  prefixRuleHit lower || containsRuleHit lower ||
  actNumAt lower || sceneNumAt lower || orderNumAt lower ||
  cueRuleHit lower || lengthRuleHit lower || alphaRuleHit lower

/-! ## Line Segmenter (`parseScriptContent`, `src/utils/scriptParsing.ts:77-220`) -/

/-- A speaker-turn candidate, as in the source's `ParsedLine` interface. -/
structure ParsedLine where
  original : Str
  speakerRaw : Str
  speakerClean : Str
  metadata : Str
  dialogue : Str
deriving DecidableEq, Repr

/-- Index of the first character satisfying `p`, if any. -/
def firstIdx (p : Char → Bool) (l : Str) : Option Nat :=
  match l.findIdx? p with
  | some i => some i
  | none => none

/-- Whether `l` contains no line terminator (`.` of a JS regex without the
`s` flag matches everything else in our character model). -/
def dotCompatible (l : Str) : Bool :=
  l.all fun c => !(c = '\n' || c = '\r')

/-- Match of `/^([^:]{1,60}):(.*)$/` against `l`: succeeds iff the first
colon sits at index 1..60 and the text after it contains no line
terminator; group 1 is the text before that colon, group 2 the text after
it. -/
def colonSplit (l : Str) : Option (Str × Str) :=
  match firstIdx (· = ':') l with
  | some i =>
    if 1 ≤ i ∧ i ≤ 60 ∧ dotCompatible (l.drop (i + 1)) then
      some (l.take i, l.drop (i + 1))
    else none
  | none => none

/-- Match of `/^([^â€”â€“-]{1,50})\s*[â€”â€“-]\s*(.*)$/` against `l`: the
separator matched is the first separator-class character, at index `i ≥ 1`;
group 1 is the first `min i 50` characters provided everything between
them and the separator is whitespace; group 2 is the text after the
separator with its leading whitespace consumed by `\s*`, and must contain
no line terminator. -/
def dashSplit (l : Str) : Option (Str × Str) :=
  match firstIdx mojibakeDash l with
  | some i =>
    if 1 ≤ i ∧ ((l.drop 50).take (i - 50)).all isWsChar ∧
        dotCompatible ((l.drop (i + 1)).dropWhile isWsChar) then
      some (l.take (min i 50), (l.drop (i + 1)).dropWhile isWsChar)
    else none
  | none => none

/-- The `commonStarters` closed-class set of the dash rejection gate. -/
def commonStarters : List Str :=
  [str "i", str "we", str "you", str "he", str "she", str "it", str "they",
   str "the", str "a", str "an", str "this", str "that", str "these", str "those",
   str "but", str "and", str "so", str "or", str "because", str "when", str "if",
   str "then", str "while",
   str "what", str "why", str "where", str "who", str "how",
   str "wait", str "look", str "stop", str "go", str "come", str "listen",
   str "no", str "yes", str "well",
   str "total", str "act", str "scene", str "order"]

/-- The `bioStarters` biographical-descriptor set of the dash gate. -/
def bioStarters : List Str :=
  [str "male", str "female", str "boy", str "girl", str "man", str "woman",
   str "kid", str "adult", str "voice", str "character", str "role", str "age",
   str "narrator", str "speaker"]

/-- JS `s.split(/[\s\p{P}]+/u)[0].toLowerCase()`. -/
def firstWordLower (l : Str) : Str :=
  toLowerStr ((jsSplitRuns (fun c => isWsChar c || isPunctChar c) l).headD [])

/-- Whether `l` contains an ASCII digit or `#` (`/[0-9#]/.test`). -/
def hasDigitOrHash (l : Str) : Bool :=
  l.any fun c => isAsciiDigit c || c = '#'

/-- JS `s === s.toUpperCase() && /[A-Z]/.test(s)`. -/
def isCapsStr (l : Str) : Bool :=
  toUpperStr l = l && l.any isUpperAlpha

/-- The ordered dash-match rejection gate (steps 1-9 of the source, each a
`continue`), as one disjunction: `line` is the raw (untrimmed) line,
`sRaw` the trimmed label, `pd` the trimmed dialogue part, `sClean` the
sanitized label. -/
def dashGateRejects (line sRaw pd sClean : Str) : Bool :=
  (match line with | c :: _ => isWsChar c | [] => false) ||
  (match sRaw with | c :: _ => isLowerAlpha c | [] => false) ||
  hasDigitOrHash sRaw ||
  commonStarters.contains (firstWordLower sRaw) ||
  (jsSplitRuns isWsChar sClean).length > 3 ||
  (match pd with | c :: _ => isLowerAlpha c | [] => false) ||
  bioStarters.contains (firstWordLower (jsTrim pd)) ||
  actNumAt (toLowerStr sRaw) ||
  (isCapsStr sClean && (isCapsStr pd || (jsSplitRuns isWsChar pd).length < 4))

/-- Outcome of cue classification for one line: an accepted cue (a fresh
`ParsedLine`), a hard skip (the source's `continue`), or no cue (fall
through to continuation handling). -/
inductive CueResult where
  | accepted (pl : ParsedLine) : CueResult
  | skipLine : CueResult
  | noCue : CueResult
deriving DecidableEq, Repr

/-- The new active `ParsedLine` built for an accepted cue. -/
def mkCue (line sRaw sClean pd : Str) : ParsedLine :=
  { original := line
    speakerRaw := sRaw
    speakerClean := sClean
    metadata := List.intercalate [' '] (parenChunks sRaw)
    dialogue := pd }

/-- Shared tail of the colon and dash cue paths: markdown-label check,
match-specific rejections, then the sanitized-label/metadata acceptance
test. -/
def cuePath (line : Str) (isDashMatch : Bool) (m1 m2 : Str) : CueResult :=
  let sRaw := jsTrim m1
  let pd := jsTrim m2
  if sRaw.headD ' ' = '*' || sRaw.headD ' ' = '#' then .skipLine
  else
    let sClean := cleanSpeakerName sRaw
    if isDashMatch && dashGateRejects line sRaw pd sClean then .skipLine
    else if !isDashMatch && hasDigitOrHash sRaw then .skipLine
    else if !sClean.isEmpty && !isMetadataLine sClean then
      .accepted (mkCue line sRaw sClean pd)
    else .noCue

/-- Per-line cue classification: try the colon regex on the trimmed line,
then the dash regex, then run the shared cue path. -/
def classifyCue (line : Str) : CueResult :=
  let trimmedLine := jsTrim line
  match colonSplit trimmedLine with
  | some (m1, m2) => cuePath line false m1 m2
  | none =>
    match dashSplit trimmedLine with
    | some (m1, m2) => cuePath line true m1 m2
    | none => .noCue

/-- The mojibake emoji prefixes of the continuation skip (source line 199)
and the `Â·` bullet prefix (source line 204), exactly as encoded. -/
def decorPrefixes : List Str :=
  [['ð', 'Ÿ', 'Ž', 'µ'], ['ð', 'Ÿ', 'Œ', 'Ÿ'], ['â', '³'],
   ['ð', 'Ÿ', '”', '¥'], ['ð', 'Ÿ', '‘', '‰']]

/-- Continuation-handling skip test: pure parenthetical line, decorative
symbol prefix, separator rule `/^[-*_]{3,}$/`, or the `Â·` bullet. -/
def contSkips (trimmedLine : Str) : Bool :=
  (trimmedLine.headD ' ' = '(' && trimmedLine.getLastD ' ' = ')') ||
  decorPrefixes.any (fun p => p.isPrefixOf trimmedLine) ||
  (trimmedLine.length ≥ 3 &&
    trimmedLine.all fun c => c = '-' || c = '*' || c = '_') ||
  (['Â', '·'].isPrefixOf trimmedLine)

/-- Parser state: the emitted lines so far and the active `ParsedLine`. -/
abbrev ParseState := List ParsedLine × Option ParsedLine

/-- Continuation handling for a non-blank, non-cue line. -/
def contStep (st : ParseState) (trimmedLine : Str) : ParseState :=
  match st.2 with
  | none => st
  | some cs =>
    if contSkips trimmedLine then st
    else
      (st.1,
       some { cs with
                dialogue :=
                  if cs.dialogue.isEmpty then trimmedLine
                  else cs.dialogue ++ ' ' :: trimmedLine })

/-- One iteration of the parser loop on one raw line. -/
def parseStep (st : ParseState) (line : Str) : ParseState :=
  let trimmedLine := jsTrim line
  if trimmedLine.isEmpty then st
  else
    match classifyCue line with
    | .accepted pl => (st.1 ++ st.2.toList, some pl)
    | .skipLine => st
    | .noCue => contStep st trimmedLine

/-- The script parser `parseScriptContent`: split on `'\n'`, run the loop,
flush the still-active line. -/
def parseScriptContent (scriptText : Str) : List ParsedLine :=
  let lines := scriptText.splitOnP (· = '\n')
  let st := lines.foldl parseStep ([], none)
  st.1 ++ st.2.toList

/-- Whether a line is an accepted speaker cue (acceptance depends only on
the line itself, never on parser state). -/
def lineAccepted (line : Str) : Bool :=
  match classifyCue line with
  | .accepted _ => true
  | _ => false

/-- Whether a line's cue candidate is rejected outright (the source's
`continue` paths: markdown label, colon digit/`#`, or the dash gate). -/
def cueRejected (line : Str) : Bool :=
  match classifyCue line with
  | .skipLine => true
  | _ => false

/-! ## Segment Grouper and generation loop (`generateDramaAudio`,
`src/services/geminiService.ts:206-356`) -/

/-- The fixed voice identifiers (`VoiceName` of `src/unnamed/part_001`). -/
inductive VoiceName where
  | Puck | Charon | Kore | Fenrir | Zephyr
deriving DecidableEq, Repr

/-- A casting record (`Character` of `src/unnamed/part_001`). -/
structure Character where
  id : Str
  name : Str
  voice : VoiceName
  pitch : ℚ
deriving DecidableEq

/-- One grouped speaking turn (the `{ speaker, text }` segments built at
`geminiService.ts:215`). -/
structure DSegment where
  speaker : Str
  text : Str
deriving DecidableEq, Repr

/-- The grouping loop of `generateDramaAudio` (lines 224-236): merge a run
of consecutive equal `speakerClean`s into the current segment, else flush
it and start a new one; the final segment is always pushed. -/
def groupLoop (cur : DSegment) : List ParsedLine → List DSegment
  | [] => [cur]
  | l :: rest =>
    if l.speakerClean = cur.speaker then
      groupLoop { cur with text := cur.text ++ ' ' :: l.dialogue } rest
    else
      cur :: groupLoop { speaker := l.speakerClean, text := l.dialogue } rest

/-- The segment grouper: empty parse yields no segments (the early return
at line 217), else run the loop seeded with the first parsed line. -/
def groupSegments : List ParsedLine → List DSegment
  | [] => []
  | first :: rest =>
    groupLoop { speaker := first.speakerClean, text := first.dialogue } rest

/-- The `voiceMap` lookup: keys are lower-cased character names, later
entries of the character list overwrite earlier ones (JS `Map.set`), and
the query key is the lower-cased segment speaker. -/
def voiceLookup (characters : List Character) (speaker : Str) : Option VoiceName :=
  ((characters.map fun c => (toLowerStr c.name, c.voice)).reverse).lookup
    (toLowerStr speaker)

/-- The unassigned-voice error message thrown at `geminiService.ts:258`. -/
def errUnassigned (speaker : Str) : Str :=
  str "Speaker \"" ++ speaker ++
    str "\" is in the script but not assigned a voice. Please use 'Auto-Assign Voices' first."

/-- Worker for `collapseWs`, fueled for kernel reduction (each unit of
fuel consumes at least one character). -/
def collapseWsAux : Nat → Str → Str
  | 0, _ => []
  | _, [] => []
  | fuel + 1, c :: rest =>
    if isWsChar c then ' ' :: collapseWsAux fuel (rest.dropWhile isWsChar)
    else c :: collapseWsAux fuel rest

/-- JS `s.replace(/\s+/g, ' ')`. -/
def collapseWs (l : Str) : Str := collapseWsAux l.length l

/-- The per-segment text cleanup at `geminiService.ts:277`:
`segment.text.replace(/\(.*?\)/g, '').replace(/\s+/g, ' ').trim()`. -/
def cleanSegText (t : Str) : Str := jsTrim (collapseWs (removeParens t))

/-- A post-synthesis segment (`AudioSegment` of `src/unnamed/part_001`). -/
structure AudioSegment where
  audio : Str
  speaker : Str
deriving DecidableEq, Repr

/-- One synthesis request issued to the provider (text sent, voice used,
speaker it was issued for). -/
structure SynthReq where
  speaker : Str
  text : Str
  voice : VoiceName
deriving DecidableEq, Repr

/-- The per-segment generation loop of `generateDramaAudio` (lines
253-353), with the provider abstracted as a total oracle `synth`: look up
the segment speaker's voice (throwing the unassigned-voice error when
there is none, before any request for that segment), skip the segment
silently when its cleaned text is empty, otherwise issue the request and
collect the returned audio. The first component records every request
issued, in order; a thrown error is `Except.error`. -/
def genLoop (synth : Str → VoiceName → Str) (characters : List Character) :
    List DSegment → List SynthReq × Except Str (List AudioSegment)
  | [] => ([], .ok [])
  | seg :: rest =>
    match voiceLookup characters seg.speaker with
    | none => ([], .error (errUnassigned seg.speaker))
    | some voice =>
      let cleanText := cleanSegText seg.text
      if cleanText.isEmpty then genLoop synth characters rest
      else
        let tail := genLoop synth characters rest
        (⟨seg.speaker, cleanText, voice⟩ :: tail.1,
         match tail.2 with
         | .ok segs => .ok (⟨synth cleanText voice, seg.speaker⟩ :: segs)
         | .error e => .error e)

/-- The deterministic pipeline of `generateDramaAudio`: parse the script,
group consecutive same-speaker lines, then run the generation loop. -/
def generateDramaAudio (synth : Str → VoiceName → Str) (script : Str)
    (characters : List Character) :
    List SynthReq × Except Str (List AudioSegment) :=
  genLoop synth characters (groupSegments (parseScriptContent script))

/-! ## Audio pipeline (`src/unnamed/part_000`) -/

/-- A Web Audio `AudioBuffer`: sample rate, frame count (`length`), and
per-channel sample data (`getChannelData`), all samples rational. -/
structure AudioBuffer where
  sampleRate : ℚ
  len : Nat
  channels : List (List ℚ)
deriving DecidableEq

/-- Web Audio `numberOfChannels`. -/
def AudioBuffer.numberOfChannels (b : AudioBuffer) : Nat := b.channels.length

/-- One output channel of `resampleBuffer` (lines 46-61): per output index
`i`, linear interpolation at source position `i * rate`, clamping reads
past the end to the last source sample. -/
def resampleChannel (rate : ℚ) (newLength : Nat) (input : List ℚ) : List ℚ :=
  (List.range newLength).map fun i =>
    let position : ℚ := (i : ℚ) * rate
    let index : ℤ := ⌊position⌋
    let fraction : ℚ := position - (index : ℚ)
    if (input.length : ℤ) - 1 ≤ index then input.getD (input.length - 1) 0
    else
      input.getD index.toNat 0 * (1 - fraction) +
        input.getD (index.toNat + 1) 0 * fraction

/-- The pitch resampler `resampleBuffer` (lines 38-63): rate 1.0 returns
the input itself; otherwise a fresh buffer of length
`Math.round(buffer.length / rate)` at the same channel count and sample
rate, filled by linear interpolation. -/
def resampleBuffer (b : AudioBuffer) (rate : ℚ) : AudioBuffer :=
  if rate = 1 then b
  else
    let newLength := (round ((b.len : ℚ) / rate)).toNat
    { sampleRate := b.sampleRate
      len := newLength
      channels := b.channels.map (resampleChannel rate newLength) }

/-- The data written into result channel `c` for one input buffer of the
concatenation loop (lines 83-94): the buffer's own channel when it has
one, its mono channel upmixed when the buffer is mono, otherwise the
region is left at the zeros `createBuffer` allocated. -/
def concatChunk (c : Nat) (b : AudioBuffer) : List ℚ :=
  if c < b.numberOfChannels then b.channels.getD c []
  else if b.numberOfChannels = 1 then b.channels.getD 0 []
  else List.replicate b.len 0

/-- The buffer concatenator `concatenateAudioBuffers` (lines 73-96): an
empty input list yields a one-sample mono buffer at the context's sample
rate; otherwise a buffer of summed length whose channel count and sample
rate are the first buffer's, with every input written at consecutive
offsets. -/
def concatenateAudioBuffers (buffers : List AudioBuffer) (ctxSampleRate : ℚ) :
    AudioBuffer :=
  match buffers with
  | [] => { sampleRate := ctxSampleRate, len := 1, channels := [[0]] }
  | b0 :: _ =>
    { sampleRate := b0.sampleRate
      len := (buffers.map fun b => b.len).sum
      channels :=
        (List.range b0.numberOfChannels).map fun c =>
          (buffers.map (concatChunk c)).flatten }

/-- Truncation toward zero of a rational (the integer conversion JS bitwise
operators and `DataView` writes apply to a number). -/
def ratTrunc (q : ℚ) : ℤ := if q < 0 then -⌊-q⌋ else ⌊q⌋

/-- JS `x | 0` (ToInt32): truncate toward zero, reduce modulo `2^32`, fold
into the signed 32-bit range. -/
def toInt32 (q : ℚ) : ℤ :=
  let m := ratTrunc q % 4294967296
  if 2147483648 ≤ m then m - 4294967296 else m

/-- Little-endian bytes of a 16-bit `DataView` write (`setInt16`/`setUint16`
both store the value modulo `2^16`). -/
def u16le (v : ℤ) : List Nat :=
  let u := (v % 65536).toNat
  [u % 256, u / 256]

/-- Little-endian bytes of a 32-bit `DataView` write. -/
def u32le (v : ℤ) : List Nat :=
  let u := (v % 4294967296).toNat
  [u % 256, u / 256 % 256, u / 65536 % 256, u / 16777216 % 256]

/-- The per-sample conversion of `audioBufferToWav` (lines 134-135):
clamp to [-1, 1], then
`(0.5 + sample < 0 ? sample * 32768 : sample * 32767) | 0` — note the
condition compares `0.5 + sample` against 0, so the 32768 factor applies
only below -0.5. -/
def wavSample (s : ℚ) : ℤ :=
  let sample := max (-1) (min 1 s)
  toInt32 (if 1/2 + sample < 0 then sample * 32768 else sample * 32767)

/-- The source samples the interleaving loop of `audioBufferToWav`
actually reads: the loop counter `pos` is reused from the header writer
and starts at 44, so frames 0..43 are never written and the loop covers
frames 44..length-1, channels interleaved per frame. -/
def wavWrittenSamples (b : AudioBuffer) : List ℚ :=
  (((List.range b.len).drop 44).map fun pos =>
    (List.range b.numberOfChannels).map fun i =>
      (b.channels.getD i []).getD pos 0).flatten

/-- The data chunk of `audioBufferToWav`: the converted written samples at
byte offsets 44, 46, ..., followed by the untouched zero bytes of the
allocated `ArrayBuffer` (frames the loop never reached). -/
def wavDataBytes (b : AudioBuffer) : List Nat :=
  let written := ((wavWrittenSamples b).map fun s => u16le (wavSample s)).flatten
  written ++ List.replicate (b.len * b.numberOfChannels * 2 - written.length) 0

/-- The 44-byte RIFF/WAVE header of `audioBufferToWav` (lines 111-125). -/
def wavHeaderBytes (b : AudioBuffer) : List Nat :=
  let numOfChan := b.numberOfChannels
  let length := b.len * numOfChan * 2 + 44
  u32le 0x46464952 ++ u32le ((length : ℤ) - 8) ++ u32le 0x45564157 ++
  u32le 0x20746d66 ++ u32le 16 ++ u16le 1 ++ u16le (numOfChan : ℤ) ++
  u32le (ratTrunc b.sampleRate) ++
  u32le (ratTrunc (b.sampleRate * 2 * (numOfChan : ℚ))) ++
  u16le ((numOfChan : ℤ) * 2) ++ u16le 16 ++
  u32le 0x61746164 ++ u32le ((length : ℤ) - 44)

/-- The WAV encoder `audioBufferToWav` (lines 99-153), as the byte list of
the produced `Blob`. -/
def audioBufferToWav (b : AudioBuffer) : List Nat :=
  wavHeaderBytes b ++ wavDataBytes b

/-- Modelled from the claim's words (C2): each sample clamped, scaled by
32768 when the clamped value is negative and by 32767 otherwise, truncated
toward zero. Used only to exhibit where the code differs. -/
def wavSampleSpecClaim (s : ℚ) : ℤ :=
  let c := max (-1) (min 1 s)
  ratTrunc (if c < 0 then c * 32768 else c * 32767)

/-- The amended per-sample conversion, stated from the spec side: clamp,
scale by 32768 below -0.5 and by 32767 otherwise, truncate toward zero
(no 32-bit wrap, which the code's `| 0` makes irrelevant in range). -/
def wavSampleAmended (s : ℚ) : ℤ :=
  let c := max (-1) (min 1 s)
  ratTrunc (if c < -(1/2) then c * 32768 else c * 32767)

/-! ## Spec-side comparison definitions and concrete inputs -/

/-- Modelled from the claim's words (C4): the sanitizer with the
truncation applied at the first whitespace-surrounded separator
unconditionally (no zero-index exception). Used only for comparison. -/
def cleanSpeakerNameClaim (raw : Str) : Str :=
  let name := removeParens raw
  let name :=
    match sepIndex name with
    | some i => name.take i
    | none => name
  jsTrim (name.filter keepNameChar)

/-- Whitespace-separated words of a string (the claim's reading of the
length heuristic, which the code actually applies to a whitespace-or-
hyphen split). -/
def wsOnlyWords (lower : Str) : List Str := jsSplitRuns isWsChar lower

/-- A sanitized name with one whitespace-separated word but five
hyphen-separated tokens. -/
def c3name : Str := str "Abc-De-Fg-Hi-Jk"

/-- The lower-cased copy `isMetadataLine` classifies. -/
def c3lower : Str := jsTrim (toLowerStr c3name)

/-- A total synthesis oracle for concrete runs of the generation loop. -/
def demoSynth : Str → VoiceName → Str := fun _ _ => str "audio-data"

/-- Casting list for the C10 witness: both script speakers are cast. -/
def castTwo : List Character :=
  [⟨str "1", str "Hero", .Puck, 1⟩, ⟨str "2", str "Villa", .Kore, 1⟩]

/-- Script whose first grouped segment has only parenthetical text. -/
def scriptParenFirst : Str := str "Hero: (sighs deeply)\nVilla: Hi there."

/-- Mono buffer at 24 kHz. -/
def b5a : AudioBuffer := ⟨24000, 1, [[1]]⟩

/-- Mono buffer at 48 kHz (mismatched with `b5a`). -/
def b5b : AudioBuffer := ⟨48000, 1, [[2]]⟩

/-- A 4800-frame mono buffer at 24 kHz of silence. -/
def b4800 : AudioBuffer := ⟨24000, 4800, [List.replicate 4800 0]⟩

/-! ## Helper lemmas and sanity checks -/

theorem findClose_length : ∀ {l inside rem : Str},
    findClose l = some (inside, rem) → rem.length < l.length := by
  intro l
  induction l with
  | nil => intro inside rem h; simp [findClose] at h
  | cons c rest ih =>
    intro inside rem h
    simp only [findClose] at h
    split at h
    · simp only [Option.some.injEq, Prod.mk.injEq] at h
      obtain ⟨-, rfl⟩ := h
      simp
    · split at h
      · simp at h
      · cases hfc : findClose rest with
        | none => rw [hfc] at h; simp at h
        | some p =>
          obtain ⟨inside', rem'⟩ := p
          rw [hfc] at h
          simp only [Option.some.injEq, Prod.mk.injEq] at h
          obtain ⟨-, rfl⟩ := h
          exact Nat.lt_trans (ih hfc) (by simp)

example : cleanSpeakerName (str "Tappu (smiling)( Kid Male Speaker )") = str "Tappu" := by decide

example : isMetadataLine (str "Scene 2") = true := by decide

example : isMetadataLine (str "Jethalal") = false := by decide

example : isMetadataLine (str "Total 10 Characters") = true := by decide

example :
    parseScriptContent (str "Narrator: The sun rose.\nHero: I will find it!") =
      [⟨str "Narrator: The sun rose.", str "Narrator", str "Narrator", [], str "The sun rose."⟩,
       ⟨str "Hero: I will find it!", str "Hero", str "Hero", [], str "I will find it!"⟩] := by decide

example :
    (parseScriptContent (str "SCENE 1: A dark forest\nHero: Who is there?")).map
        (fun pl => pl.speakerClean) = [str "Hero"] := by decide

example :
    (parseScriptContent (str "Jethalal: Aaj ka topic hai...\n(laughs)\nbahut accha hai")).map
        (fun pl => pl.dialogue) = [str "Aaj ka topic hai... bahut accha hai"] := by decide

theorem groupLoop_length_le (ls : List ParsedLine) :
    ∀ cur, (groupLoop cur ls).length ≤ ls.length + 1 := by
  induction ls with
  | nil => intro cur; simp [groupLoop]
  | cons l rest ih =>
    intro cur
    simp only [groupLoop]
    split
    · exact Nat.le_trans (ih _) (by simp)
    · simpa using Nat.succ_le_succ (ih _)

theorem groupLoop_length_eq_iff (ls : List ParsedLine) :
    ∀ cur, (groupLoop cur ls).length = ls.length + 1 ↔
      List.Chain' (· ≠ ·) (cur.speaker :: ls.map (fun pl => pl.speakerClean)) := by
  induction ls with
  | nil => intro cur; simp [groupLoop]
  | cons l rest ih =>
    intro cur
    simp only [groupLoop, List.map_cons, List.chain'_cons, List.length_cons]
    split
    · rename_i heq
      have hle := groupLoop_length_le rest
        { cur with text := cur.text ++ ' ' :: l.dialogue }
      constructor
      · intro hlen
        exact absurd hlen (by omega)
      · rintro ⟨hne, -⟩
        exact absurd heq.symm hne
    · rename_i hne
      constructor
      · intro hlen
        refine ⟨fun e => hne e.symm,
          (ih { speaker := l.speakerClean, text := l.dialogue }).mp ?_⟩
        simp only [List.length_cons] at hlen
        omega
      · rintro ⟨-, hc⟩
        have hli := (ih { speaker := l.speakerClean, text := l.dialogue }).mpr hc
        simp only [List.length_cons]
        omega

/-! ## Claim theorems -/

/-- C8: for every `ParsedLine` sequence the segment grouper's output is at
most as long as its input, with equality exactly when no two consecutive
lines share a `speakerClean` value (exact string equality), and the empty
input yields the empty output. -/
theorem grouping_law (ls : List ParsedLine) :
    (groupSegments ls).length ≤ ls.length ∧
    ((groupSegments ls).length = ls.length ↔
      List.Chain' (fun a b : ParsedLine => a.speakerClean ≠ b.speakerClean) ls) ∧
    groupSegments ([] : List ParsedLine) = [] := by
  refine ⟨?_, ?_, rfl⟩
  · cases ls with
    | nil => simp [groupSegments]
    | cons first rest =>
      simpa [groupSegments] using
        groupLoop_length_le rest ⟨first.speakerClean, first.dialogue⟩
  · cases ls with
    | nil => simp [groupSegments]
    | cons first rest =>
      have h1 := groupLoop_length_eq_iff rest ⟨first.speakerClean, first.dialogue⟩
      simp only [groupSegments, List.length_cons]
      rw [h1]
      rw [show (⟨first.speakerClean, first.dialogue⟩ : DSegment).speaker
            = first.speakerClean from rfl]
      rw [← List.map_cons]
      exact List.chain'_map _

/-- C9: resampling at rate 1.0 returns the input buffer itself, and for
any other rate in [0.8, 1.2] the output length is
`round(length / rate)` with the channel count and the sample rate of the
input preserved. -/
theorem resample_laws (b : AudioBuffer) (r : ℚ) (h1 : r ≠ 1)
    (h2 : (0.8 : ℚ) ≤ r) (h3 : r ≤ (1.2 : ℚ)) :
    resampleBuffer b 1 = b ∧
    ((resampleBuffer b r).len : ℤ) = round ((b.len : ℚ) / r) ∧
    (resampleBuffer b r).numberOfChannels = b.numberOfChannels ∧
    (resampleBuffer b r).sampleRate = b.sampleRate := by
  have hr0 : (0 : ℚ) < r := lt_of_lt_of_le (by norm_num) h2
  have hq : (0 : ℚ) ≤ (b.len : ℚ) / r := div_nonneg (by positivity) hr0.le
  have hround : 0 ≤ round ((b.len : ℚ) / r) := by
    rw [round_eq]
    exact Int.le_floor.mpr (by push_cast; linarith)
  refine ⟨by simp [resampleBuffer], ?_, ?_, ?_⟩ <;>
    simp [resampleBuffer, h1, AudioBuffer.numberOfChannels,
      Int.toNat_of_nonneg hround]

/-- C9 witness: a 4800-frame buffer resampled at rate 4/5 obeys the
length law, and that length is 6000 frames. -/
theorem resample_laws_at_4800 :
    ((4 : ℚ)/5 ≠ 1) ∧
    ((resampleBuffer b4800 (4/5)).len : ℤ) = round ((b4800.len : ℚ) / (4/5)) ∧
    round ((b4800.len : ℚ) / (4/5)) = 6000 := by
  refine ⟨by norm_num,
    (resample_laws b4800 (4/5) (by norm_num) (by norm_num) (by norm_num)).2.1, ?_⟩
  show round ((4800 : ℚ) / (4/5)) = 6000
  norm_num [round_eq]

/-- C5 counterexample: `concatenateAudioBuffers` applied to two buffers
with different sample rates raises no error at all — it returns a result
buffer (of summed length, stamped with the first buffer's rate), so the
claimed loud failure on mismatched rates does not exist in the code. -/
theorem concat_mismatch_counterexample :
    b5a.sampleRate ≠ b5b.sampleRate ∧
    (concatenateAudioBuffers [b5a, b5b] 44100).len = 2 ∧
    (concatenateAudioBuffers [b5a, b5b] 44100).sampleRate = 24000 := by
  refine ⟨?_, rfl, rfl⟩
  show (24000 : ℚ) ≠ 48000
  norm_num

/-- C5 amended: `concatenateAudioBuffers` performs no sample-rate
validation; for any non-empty input list — mismatched rates included — it
produces a buffer whose sample rate and channel count are the first
buffer's and whose length is the sum of the input lengths. -/
theorem concat_no_rate_check (b0 : AudioBuffer) (rest : List AudioBuffer)
    (ctx : ℚ) :
    (concatenateAudioBuffers (b0 :: rest) ctx).sampleRate = b0.sampleRate ∧
    (concatenateAudioBuffers (b0 :: rest) ctx).len
      = ((b0 :: rest).map fun b => b.len).sum ∧
    (concatenateAudioBuffers (b0 :: rest) ctx).numberOfChannels
      = b0.numberOfChannels := by
  refine ⟨rfl, rfl, ?_⟩
  simp [concatenateAudioBuffers, AudioBuffer.numberOfChannels]

theorem ratTrunc_nonpos {q : ℚ} (h : q ≤ 0) :
    q ≤ (ratTrunc q : ℚ) ∧ (ratTrunc q : ℚ) ≤ 0 := by
  unfold ratTrunc
  split
  · rename_i hneg
    have h1 : (0 : ℤ) ≤ ⌊-q⌋ := Int.le_floor.mpr (by push_cast; linarith)
    have h2 : (0 : ℚ) ≤ (⌊-q⌋ : ℚ) := by exact_mod_cast h1
    have h3 : (⌊-q⌋ : ℚ) ≤ -q := Int.floor_le (-q)
    push_cast
    constructor <;> linarith
  · rename_i hnp
    have hq0 : q = 0 := le_antisymm h (not_lt.mp hnp)
    subst hq0
    simp

theorem ratTrunc_nonneg {q : ℚ} (h : 0 ≤ q) :
    0 ≤ (ratTrunc q : ℚ) ∧ (ratTrunc q : ℚ) ≤ q := by
  unfold ratTrunc
  rw [if_neg (not_lt.mpr h)]
  constructor
  · exact_mod_cast Int.le_floor.mpr (by push_cast; linarith)
  · exact Int.floor_le q

/-- The `| 0` wrap is the identity on values that truncate into the
signed 32-bit range. -/
theorem toInt32_eq_ratTrunc {q : ℚ} (hl : -2147483648 ≤ ratTrunc q)
    (hu : ratTrunc q < 2147483648) : toInt32 q = ratTrunc q := by
  unfold toInt32
  dsimp only []
  split <;> omega

/-- The conversion `audioBufferToWav` applies to each sample equals the
amended spec-side conversion: clamp, scale with the 32768 factor exactly
below -0.5, truncate toward zero. -/
theorem wavSample_eq_amended (s : ℚ) : wavSample s = wavSampleAmended s := by
  unfold wavSample wavSampleAmended
  dsimp only []
  set c := max (-1 : ℚ) (min 1 s) with hc
  have hcl : -1 ≤ c := le_max_left _ _
  have hcu : c ≤ 1 := max_le (by norm_num) (min_le_left _ _)
  by_cases hsplit : c < -(1/2)
  · rw [if_pos (show (1 : ℚ)/2 + c < 0 by linarith), if_pos hsplit]
    have hq0 : c * 32768 ≤ 0 := by nlinarith
    have hq1 : (-32768 : ℚ) ≤ c * 32768 := by nlinarith
    obtain ⟨hl, hu⟩ := ratTrunc_nonpos hq0
    refine toInt32_eq_ratTrunc ?_ ?_
    · have h2 : ((-2147483648 : ℤ) : ℚ) ≤ (ratTrunc (c * 32768) : ℚ) := by
        push_cast
        linarith
      exact_mod_cast h2
    · have h2 : (ratTrunc (c * 32768) : ℚ) < 2147483648 :=
        lt_of_le_of_lt hu (by norm_num)
      exact_mod_cast h2
  · rw [if_neg (show ¬((1 : ℚ)/2 + c < 0) by push_neg at hsplit ⊢; linarith),
      if_neg hsplit]
    have hq1 : c * 32767 ≤ 32767 := by nlinarith
    have hq0 : (-32767 : ℚ) ≤ c * 32767 := by nlinarith
    refine toInt32_eq_ratTrunc ?_ ?_
    · rcases le_or_lt 0 (c * 32767) with hs | hs
      · have := (ratTrunc_nonneg hs).1
        exact_mod_cast le_trans (by norm_num : ((-2147483648 : ℤ) : ℚ) ≤ 0) this
      · have := (ratTrunc_nonpos hs.le).1
        have h2 : ((-2147483648 : ℤ) : ℚ) ≤ (ratTrunc (c * 32767) : ℚ) := by
          push_cast
          linarith
        exact_mod_cast h2
    · rcases le_or_lt 0 (c * 32767) with hs | hs
      · have := (ratTrunc_nonneg hs).2
        have h2 : (ratTrunc (c * 32767) : ℚ) < 2147483648 := by linarith
        exact_mod_cast h2
      · have := (ratTrunc_nonpos hs.le).2
        have h2 : (ratTrunc (c * 32767) : ℚ) < 2147483648 := by linarith
        exact_mod_cast h2

/-- C2 counterexample: at clamped sample value -1/4 the code multiplies by
32767 (because its condition is `0.5 + sample < 0`, i.e. sample < -0.5),
producing -8191, while the claim's rule (negative ⇒ × 32768) demands
-8192. -/
theorem wav_scale_counterexample :
    wavSample (-(1/4)) = -8191 ∧ wavSampleSpecClaim (-(1/4)) = -8192 ∧
    wavSample (-(1/4)) ≠ wavSampleSpecClaim (-(1/4)) := by
  have hmin : min (1 : ℚ) (-(1/4)) = -(1/4) := by
    rw [min_eq_right]
    norm_num
  have hmax : max (-1 : ℚ) (-(1/4)) = -(1/4) := by
    rw [max_eq_right]
    norm_num
  have hfl : ⌊(32767/4 : ℚ)⌋ = 8191 := by
    rw [Int.floor_eq_iff]
    constructor <;> norm_num
  have h1 : wavSample (-(1/4)) = -8191 := by
    unfold wavSample
    dsimp only []
    rw [hmin, hmax, if_neg (by norm_num)]
    rw [show (-(1/4) : ℚ) * 32767 = -(32767/4) by norm_num]
    unfold toInt32 ratTrunc
    dsimp only []
    rw [if_pos (by norm_num : (-(32767/4) : ℚ) < 0)]
    rw [show -(-(32767/4) : ℚ) = 32767/4 by norm_num, hfl]
    split <;> omega
  have h2 : wavSampleSpecClaim (-(1/4)) = -8192 := by
    unfold wavSampleSpecClaim
    dsimp only []
    rw [hmin, hmax, if_pos (by norm_num : (-(1/4) : ℚ) < 0)]
    rw [show (-(1/4) : ℚ) * 32768 = -8192 by norm_num]
    unfold ratTrunc
    rw [if_pos (by norm_num : (-8192 : ℚ) < 0)]
    rw [show -(-8192 : ℚ) = ((8192 : ℤ) : ℚ) by norm_num, Int.floor_intCast]
  exact ⟨h1, h2, by rw [h1, h2]; decide⟩

/-- C2 amended: every byte of the WAV output is as claimed except the
scaling threshold — each written sample is the source float clamped to
[-1, 1], multiplied by 32768 when the clamped value is below -0.5 and by
32767 otherwise, truncated toward zero and stored as a little-endian
16-bit value. -/
theorem wav_encoder_scaling (b : AudioBuffer) :
    audioBufferToWav b =
      wavHeaderBytes b ++
        (((wavWrittenSamples b).map fun s => u16le (wavSampleAmended s)).flatten ++
          List.replicate
            (b.len * b.numberOfChannels * 2 -
              (((wavWrittenSamples b).map fun s =>
                u16le (wavSampleAmended s)).flatten).length)
            0) := by
  have hfun : (fun s => u16le (wavSample s)) = fun s => u16le (wavSampleAmended s) :=
    funext fun s => by rw [wavSample_eq_amended]
  unfold audioBufferToWav wavDataBytes
  dsimp only []
  rw [hfun]

theorem classify_blank {line : Str} (h : jsTrim line = []) :
    classifyCue line = .noCue := by
  unfold classifyCue
  rw [h]
  rfl

/-- C1 amended: a line whose cue candidate is rejected — by the markdown
`*`/`#` label check, the colon digit/`#` rejection or the dash rejection
gate — is skipped outright (the source's `continue`): the parser state is
unchanged, so the line is never appended to the active dialogue. The
claimed fall-through to continuation handling happens only for lines with
no colon/dash match at all or whose sanitized label is empty or
classified as metadata. -/
theorem rejected_cue_skips_line (st : ParseState) (line : Str)
    (h : cueRejected line = true) : parseStep st line = st := by
  have hc : classifyCue line = .skipLine := by
    unfold cueRejected at h
    revert h
    cases hcc : classifyCue line <;> intro h
    · exact absurd h (by simp)
    · rfl
    · exact absurd h (by simp)
  have hb : (jsTrim line).isEmpty = false := by
    cases he : (jsTrim line).isEmpty
    · rfl
    · rw [classify_blank (List.isEmpty_iff.mp he)] at hc
      exact absurd hc (by simp)
  unfold parseStep
  dsimp only []
  rw [hb, hc]
  simp

/-- C1 witness: the markdown-label rejection `"* Note: hi"` leaves the
parser state untouched. -/
theorem rejected_cue_skips_line_at :
    cueRejected (str "* Note: hi") = true ∧
    parseStep ([], none) (str "* Note: hi") = ([], none) :=
  ⟨by decide, rejected_cue_skips_line ([], none) (str "* Note: hi") (by decide)⟩

/-- C1 counterexample: the line `"ACT 2: from Act Two"` is rejected by the
colon digit rejection while a `ParsedLine` for Hero is active and the line
is no skipped parenthetical/symbol/separator form, yet Hero's dialogue
stays `"Hello"` — the rejected line is dropped, not appended as the claim
predicts. -/
theorem colon_reject_not_continuation :
    cueRejected (str "ACT 2: from Act Two") = true ∧
    contSkips (str "ACT 2: from Act Two") = false ∧
    parseScriptContent (str "Hero: Hello\nACT 2: from Act Two")
      = [⟨str "Hero: Hello", str "Hero", str "Hero", [], str "Hello"⟩] ∧
    str "Hello" ≠ str "Hello ACT 2: from Act Two" := by
  refine ⟨by decide, by decide, by decide, by decide⟩

/-- C3 counterexample: the name `"Abc-De-Fg-Hi-Jk"` passes the prefix,
substring, regex and cue-token rules and has a single whitespace-separated
word (and nonempty alpha content), yet `isMetadataLine` classifies it as
noise: the implemented length heuristic splits on hyphens as well. -/
theorem length_heuristic_counterexample :
    prefixRuleHit c3lower = false ∧ containsRuleHit c3lower = false ∧
    actNumAt c3lower = false ∧ sceneNumAt c3lower = false ∧
    orderNumAt c3lower = false ∧ cueRuleHit c3lower = false ∧
    (wsOnlyWords c3lower).length = 1 ∧ alphaRuleHit c3lower = false ∧
    isMetadataLine c3name = true := by decide

/-- C3 amended: when the prefix, substring, regex and cue-token rules all
fail, the classifier flags the name exactly when its
whitespace-or-hyphen-separated token list (the `/[\s-]+/` split) has more
than 4 tokens or the name has no letter a-z left (names with 4 or fewer
such tokens proceed to the alpha-emptiness check). -/
theorem length_heuristic_token_split (name : Str)
    (h1 : prefixRuleHit (jsTrim (toLowerStr name)) = false)
    (h2 : containsRuleHit (jsTrim (toLowerStr name)) = false)
    (h3 : actNumAt (jsTrim (toLowerStr name)) = false)
    (h4 : sceneNumAt (jsTrim (toLowerStr name)) = false)
    (h5 : orderNumAt (jsTrim (toLowerStr name)) = false)
    (h6 : cueRuleHit (jsTrim (toLowerStr name)) = false) :
    isMetadataLine name = true ↔
      ((metaWords (jsTrim (toLowerStr name))).length > 4 ∨
        alphaRuleHit (jsTrim (toLowerStr name)) = true) := by
  unfold isMetadataLine
  dsimp only []
  rw [h1, h2, h3, h4, h5, h6]
  simp [lengthRuleHit]

/-- C3 witness: the amended length rule evaluated at `"Abc-De-Fg-Hi-Jk"`
(5 tokens, so the classifier flags it). -/
theorem length_heuristic_token_split_at :
    cueRuleHit (jsTrim (toLowerStr c3name)) = false ∧
    (metaWords (jsTrim (toLowerStr c3name))).length = 5 ∧
    (isMetadataLine c3name = true ↔
      ((metaWords (jsTrim (toLowerStr c3name))).length > 4 ∨
        alphaRuleHit (jsTrim (toLowerStr c3name)) = true)) :=
  ⟨by decide, by decide,
    length_heuristic_token_split c3name (by decide) (by decide) (by decide)
      (by decide) (by decide) (by decide)⟩

/-- C4 counterexample: on the label `"(a) - desc"` the remaining text
after parenthesis removal is `" - desc"`, whose standalone-dash match sits
at index 0; the source's truthiness test `separatorMatch.index` then skips
the truncation, yielding `"- desc"`, while the claim's unconditional
truncation would yield the empty name. -/
theorem sanitize_zero_index_counterexample :
    cleanSpeakerName (str "(a) - desc") = str "- desc" ∧
    cleanSpeakerNameClaim (str "(a) - desc") = [] ∧
    cleanSpeakerName (str "(a) - desc") ≠ cleanSpeakerNameClaim (str "(a) - desc") := by
  refine ⟨by decide, by decide, by decide⟩

/-- C4 amended: when the first whitespace-surrounded dash of the
parenthesis-stripped label sits at a nonzero index, `cleanSpeakerName`
truncates there before filtering and trimming; when that first match is at
index 0 the truncation is skipped. -/
theorem sanitize_truncation (l : Str) (i : Nat)
    (h : sepIndex (removeParens l) = some i) :
    cleanSpeakerName l =
      jsTrim ((if i = 0 then removeParens l
               else (removeParens l).take i).filter keepNameChar) := by
  unfold cleanSpeakerName
  dsimp only []
  rw [h]

/-- C4 witness: the truncation applied to `"Tappu (x) - desc"` (first
separator match at index 5 of the stripped text) produces `"Tappu"`. -/
theorem sanitize_truncation_at :
    sepIndex (removeParens (str "Tappu (x) - desc")) = some 5 ∧
    cleanSpeakerName (str "Tappu (x) - desc") =
      jsTrim ((if 5 = 0 then removeParens (str "Tappu (x) - desc")
               else (removeParens (str "Tappu (x) - desc")).take 5).filter keepNameChar) ∧
    cleanSpeakerName (str "Tappu (x) - desc") = str "Tappu" :=
  ⟨by decide, sanitize_truncation (str "Tappu (x) - desc") 5 (by decide), by decide⟩

theorem cuePath_accepted_good {line : Str} {d : Bool} {m1 m2 : Str}
    {pl : ParsedLine} (h : cuePath line d m1 m2 = .accepted pl) :
    pl.speakerClean ≠ [] ∧ isMetadataLine pl.speakerClean = false := by
  unfold cuePath at h
  dsimp only [] at h
  split at h
  · exact absurd h (by simp)
  · split at h
    · exact absurd h (by simp)
    · split at h
      · exact absurd h (by simp)
      · split at h
        · rename_i hcond
          simp only [CueResult.accepted.injEq] at h
          subst h
          simp only [Bool.and_eq_true, Bool.not_eq_true'] at hcond
          refine ⟨?_, hcond.2⟩
          have := hcond.1
          simp only [mkCue]
          intro he
          rw [he] at this
          simp at this
        · exact absurd h (by simp)

theorem classify_accepted_good {line : Str} {pl : ParsedLine}
    (h : classifyCue line = .accepted pl) :
    pl.speakerClean ≠ [] ∧ isMetadataLine pl.speakerClean = false := by
  unfold classifyCue at h
  dsimp only [] at h
  split at h
  · exact cuePath_accepted_good h
  · split at h
    · exact cuePath_accepted_good h
    · exact absurd h (by simp)

theorem parseStep_eq (st : ParseState) (line : Str) :
    (lineAccepted line = true ∧ ∃ pl, classifyCue line = .accepted pl ∧
        parseStep st line = (st.1 ++ st.2.toList, some pl)) ∨
    (lineAccepted line = false ∧ (parseStep st line).1 = st.1 ∧
        (parseStep st line).2.map ParsedLine.speakerClean
          = st.2.map ParsedLine.speakerClean) := by
  obtain ⟨ps, cur⟩ := st
  by_cases hb : (jsTrim line).isEmpty = true
  · right
    have hnc : classifyCue line = .noCue := classify_blank (List.isEmpty_iff.mp hb)
    refine ⟨by simp [lineAccepted, hnc], ?_, ?_⟩ <;> simp [parseStep, hb]
  · rw [Bool.not_eq_true] at hb
    cases hc : classifyCue line with
    | accepted pl =>
      left
      refine ⟨by simp [lineAccepted, hc], pl, rfl, ?_⟩
      unfold parseStep
      dsimp only []
      rw [hb, hc]
      simp
    | skipLine =>
      right
      refine ⟨by simp [lineAccepted, hc], ?_, ?_⟩ <;>
        · unfold parseStep
          dsimp only []
          rw [hb, hc]
          simp
    | noCue =>
      right
      refine ⟨by simp [lineAccepted, hc], ?_, ?_⟩ <;>
        · unfold parseStep
          dsimp only []
          rw [hb, hc]
          simp only [Bool.false_eq_true, if_false]
          unfold contStep
          cases cur with
          | none => simp
          | some cs =>
            dsimp only []
            split <;> simp

theorem parse_inv (lines : List Str) : ∀ (st : ParseState),
    (∀ pl ∈ st.1 ++ st.2.toList,
        pl.speakerClean ≠ [] ∧ isMetadataLine pl.speakerClean = false) →
    (∀ pl ∈ (lines.foldl parseStep st).1 ++ (lines.foldl parseStep st).2.toList,
        pl.speakerClean ≠ [] ∧ isMetadataLine pl.speakerClean = false) ∧
    (lines.foldl parseStep st).1.length + (lines.foldl parseStep st).2.toList.length
      = st.1.length + st.2.toList.length + lines.countP lineAccepted := by
  induction lines with
  | nil =>
    intro st h
    simpa using h
  | cons line rest ih =>
    intro st h
    simp only [List.foldl_cons, List.countP_cons]
    rcases parseStep_eq st line with ⟨ha, pl, hcl, hstep⟩ | ⟨ha, h1, h2⟩
    · rw [hstep]
      have hgood := classify_accepted_good hcl
      have hmem : ∀ q ∈ (st.1 ++ st.2.toList, some pl).1 ++
          (st.1 ++ st.2.toList, some pl).2.toList,
          q.speakerClean ≠ [] ∧ isMetadataLine q.speakerClean = false := by
        intro q hq
        simp only [Option.toList_some, List.mem_append, List.mem_singleton] at hq
        rcases hq with (hq | hq) | rfl
        · exact h q (by simp [hq])
        · exact h q (by simp [hq])
        · exact hgood
      obtain ⟨hg, hlen⟩ := ih _ hmem
      refine ⟨hg, ?_⟩
      rw [hlen]
      simp only [ha, if_true, List.length_append, Option.toList_some,
        List.length_cons, List.length_nil]
      omega
    · have hmem2 : ∀ q ∈ (parseStep st line).1 ++ (parseStep st line).2.toList,
          q.speakerClean ≠ [] ∧ isMetadataLine q.speakerClean = false := by
        intro q hq
        simp only [List.mem_append] at hq
        rcases hq with hq | hq
        · exact h q (by simp [h1 ▸ hq])
        · cases hx : (parseStep st line).2 with
          | none => rw [hx] at hq; simp at hq
          | some q' =>
            rw [hx] at hq
            simp only [Option.toList_some, List.mem_singleton] at hq
            subst hq
            cases hy : st.2 with
            | none => rw [hx, hy] at h2; simp at h2
            | some cs =>
              rw [hx, hy] at h2
              simp at h2
              have hcs := h cs (by simp [hy])
              rw [← h2] at hcs
              exact hcs
      obtain ⟨hg, hlen⟩ := ih (parseStep st line) hmem2
      refine ⟨hg, ?_⟩
      rw [hlen, h1]
      have hto : (parseStep st line).2.toList.length = st.2.toList.length := by
        cases hx : (parseStep st line).2 <;> cases hy : st.2 <;>
          rw [hx, hy] at h2 <;> simp_all
      rw [hto]
      try simp [ha]

/-- C7: the parser emits exactly one `ParsedLine` per accepted speaker
cue (acceptance is a property of the line alone), and every emitted
`ParsedLine` carries a non-empty `speakerClean` on which `isMetadataLine`
is false — continuation appending never touches `speakerClean`. -/
theorem parse_cue_accounting (script : Str) :
    (parseScriptContent script).length
        = (script.splitOnP (· = '\n')).countP lineAccepted ∧
    ∀ pl ∈ parseScriptContent script,
      pl.speakerClean ≠ [] ∧ isMetadataLine pl.speakerClean = false := by
  have h := parse_inv (script.splitOnP (· = '\n')) ([], none) (by simp)
  unfold parseScriptContent
  dsimp only []
  constructor
  · have := h.2
    simpa using this
  · intro pl hpl
    exact h.1 pl hpl

/-- C7 witness: the accounting evaluated on a concrete two-cue script. -/
theorem parse_cue_accounting_at :
    ((parseScriptContent (str "Hero: Hi\nnice day\nVilla: Yes")).length
        = ((str "Hero: Hi\nnice day\nVilla: Yes").splitOnP (· = '\n')).countP lineAccepted) ∧
    ((str "Hero: Hi\nnice day\nVilla: Yes").splitOnP (· = '\n')).countP lineAccepted = 2 :=
  ⟨(parse_cue_accounting (str "Hero: Hi\nnice day\nVilla: Yes")).1, by decide⟩

theorem genLoop_uncast (synth : Str → VoiceName → Str)
    (characters : List Character) :
    ∀ (segs : List DSegment) (s0 : DSegment),
      segs.find? (fun s => (voiceLookup characters s.speaker).isNone) = some s0 →
      (genLoop synth characters segs).2 = .error (errUnassigned s0.speaker) ∧
      ∀ r ∈ (genLoop synth characters segs).1, r.speaker ≠ s0.speaker := by
  intro segs
  induction segs with
  | nil => intro s0 h; simp at h
  | cons seg rest ih =>
    intro s0 h
    by_cases hp : (voiceLookup characters seg.speaker).isNone = true
    · rw [List.find?_cons_of_pos _ (by simpa using hp)] at h
      have hseg : seg = s0 := by simpa using h
      subst hseg
      have hnone : voiceLookup characters seg.speaker = none :=
        Option.isNone_iff_eq_none.mp hp
      unfold genLoop
      rw [hnone]
      exact ⟨rfl, by simp⟩
    · rw [List.find?_cons_of_neg _ (by simpa using hp)] at h
      obtain ⟨v, hv⟩ : ∃ v, voiceLookup characters seg.speaker = some v := by
        cases hvl : voiceLookup characters seg.speaker
        · rw [hvl] at hp; simp at hp
        · exact ⟨_, rfl⟩
      have hs0 : (voiceLookup characters s0.speaker).isNone = true := by
        simpa using List.find?_some h
      have hneq : seg.speaker ≠ s0.speaker := by
        intro e
        rw [e, Option.isNone_iff_eq_none.mp hs0] at hv
        cases hv
      obtain ⟨ihe, ihr⟩ := ih s0 h
      unfold genLoop
      rw [hv]
      dsimp only []
      by_cases hemp : (cleanSegText seg.text).isEmpty = true
      · rw [if_pos hemp]
        exact ⟨ihe, ihr⟩
      · rw [if_neg (by simp [hemp])]
        constructor
        · dsimp only []
          rw [ihe]
        · intro r hr
          rcases List.mem_cons.mp hr with rfl | hr'
          · exact hneq
          · exact ihr r hr'

/-- C6: whenever grouping produces a segment whose speaker has no
case-insensitive match among the characters' names, `generateDramaAudio`
throws the unassigned-voice error for the first such segment — a message
containing that speaker's name and the casting instruction — and no
synthesis request is ever issued for that speaker. -/
theorem uncast_speaker_error (synth : Str → VoiceName → Str) (script : Str)
    (characters : List Character) (s0 : DSegment)
    (h : (groupSegments (parseScriptContent script)).find?
        (fun s => (voiceLookup characters s.speaker).isNone) = some s0) :
    (generateDramaAudio synth script characters).2
        = .error (errUnassigned s0.speaker) ∧
    List.IsInfix s0.speaker (errUnassigned s0.speaker) ∧
    ∀ r ∈ (generateDramaAudio synth script characters).1,
      r.speaker ≠ s0.speaker := by
  obtain ⟨he, hr⟩ := genLoop_uncast synth characters _ s0 h
  refine ⟨he, ⟨str "Speaker \"",
    str "\" is in the script but not assigned a voice. Please use 'Auto-Assign Voices' first.",
    by simp [errUnassigned, List.append_assoc]⟩, hr⟩

/-- C6 witness: a one-segment script with an empty character list throws
the unassigned-voice error for `"Hero"`. -/
theorem uncast_speaker_error_at :
    ((groupSegments (parseScriptContent (str "Hero: Hello there"))).find?
        (fun s => (voiceLookup [] s.speaker).isNone)
      = some ⟨str "Hero", str "Hello there"⟩) ∧
    (generateDramaAudio demoSynth (str "Hero: Hello there") []).2
        = .error (errUnassigned (str "Hero")) :=
  ⟨by decide,
    (uncast_speaker_error demoSynth (str "Hero: Hello there") []
      ⟨str "Hero", str "Hello there"⟩ (by decide)).1⟩

theorem genLoop_all_cast (synth : Str → VoiceName → Str)
    (characters : List Character) :
    ∀ segs : List DSegment,
      (∀ seg ∈ segs, (voiceLookup characters seg.speaker).isSome = true) →
      genLoop synth characters segs =
        ((segs.filter fun s => !(cleanSegText s.text).isEmpty).map fun s =>
            ⟨s.speaker, cleanSegText s.text,
              (voiceLookup characters s.speaker).getD .Puck⟩,
         .ok ((segs.filter fun s => !(cleanSegText s.text).isEmpty).map fun s =>
            ⟨synth (cleanSegText s.text)
              ((voiceLookup characters s.speaker).getD .Puck), s.speaker⟩)) := by
  intro segs
  induction segs with
  | nil => intro h; rfl
  | cons seg rest ih =>
    intro h
    obtain ⟨v, hv⟩ : ∃ v, voiceLookup characters seg.speaker = some v := by
      have hs := h seg (by simp)
      cases hvl : voiceLookup characters seg.speaker
      · rw [hvl] at hs; simp at hs
      · exact ⟨_, rfl⟩
    have ihh := ih (fun s hs => h s (by simp [hs]))
    unfold genLoop
    rw [hv]
    dsimp only []
    by_cases hemp : (cleanSegText seg.text).isEmpty = true
    · rw [if_pos hemp, ihh]
      simp [List.filter_cons, hemp]
    · rw [if_neg (by simp [hemp]), ihh]
      simp [List.filter_cons, hemp, hv]

/-- C10 amended: when every grouped segment's speaker is cast, the
generation run neither errs nor requests synthesis for segments whose
cleaned text is empty — exactly the segments with non-empty cleaned text
are requested and returned, so the output can be shorter than the grouped
segment list; a segment with empty cleaned text and an uncast speaker
still throws (the casting check precedes the skip). -/
theorem empty_segments_skipped (synth : Str → VoiceName → Str) (script : Str)
    (characters : List Character)
    (h : ∀ seg ∈ groupSegments (parseScriptContent script),
        (voiceLookup characters seg.speaker).isSome = true) :
    generateDramaAudio synth script characters =
      (((groupSegments (parseScriptContent script)).filter
            (fun s => !(cleanSegText s.text).isEmpty)).map (fun s =>
          ⟨s.speaker, cleanSegText s.text,
            (voiceLookup characters s.speaker).getD .Puck⟩),
       .ok (((groupSegments (parseScriptContent script)).filter
            (fun s => !(cleanSegText s.text).isEmpty)).map (fun s =>
          ⟨synth (cleanSegText s.text)
            ((voiceLookup characters s.speaker).getD .Puck), s.speaker⟩))) :=
  genLoop_all_cast synth characters _ h

/-- C10 witness: with both speakers cast, the parenthetical-only first
segment is skipped silently — one request for two grouped segments. -/
theorem empty_segments_skipped_at :
    (∀ seg ∈ groupSegments (parseScriptContent scriptParenFirst),
        (voiceLookup castTwo seg.speaker).isSome = true) ∧
    generateDramaAudio demoSynth scriptParenFirst castTwo =
      (((groupSegments (parseScriptContent scriptParenFirst)).filter
            (fun s => !(cleanSegText s.text).isEmpty)).map (fun s =>
          ⟨s.speaker, cleanSegText s.text,
            (voiceLookup castTwo s.speaker).getD .Puck⟩),
       .ok (((groupSegments (parseScriptContent scriptParenFirst)).filter
            (fun s => !(cleanSegText s.text).isEmpty)).map (fun s =>
          ⟨demoSynth (cleanSegText s.text)
            ((voiceLookup castTwo s.speaker).getD .Puck), s.speaker⟩))) ∧
    (generateDramaAudio demoSynth scriptParenFirst castTwo).1.length = 1 ∧
    (groupSegments (parseScriptContent scriptParenFirst)).length = 2 :=
  ⟨by decide,
    empty_segments_skipped demoSynth scriptParenFirst castTwo (by decide),
    by decide, by decide⟩

/-- C10 counterexample: the grouped segment for `"Hero: (sighs)"` has
empty cleaned text, yet with an empty character list the run is not a
silent skip — the unassigned-voice error is raised for it, because the
casting check runs before the empty-text check. -/
theorem empty_text_uncast_counterexample :
    groupSegments (parseScriptContent (str "Hero: (sighs)"))
      = [⟨str "Hero", str "(sighs)"⟩] ∧
    cleanSegText (str "(sighs)") = [] ∧
    (generateDramaAudio demoSynth (str "Hero: (sighs)") []).2
      = .error (errUnassigned (str "Hero")) := by
  refine ⟨by decide, by decide, rfl⟩

end AudioDrama
